import Mathlib

/-! Verification development for the unified multi-provider cloud storage
adapter layer (`src/adapters/baidu_adapter.py`, `src/adapters/aliyun_adapter.py`,
`src/adapters/xunlei_adapter.py`).

Modelling conventions:
* Python strings are Lean `String`; character-level operations work on
  `String.data` (a `List Char`).  Character classes of the Python regular
  expressions (`\w`, `\s`, `[a-zA-Z0-9]`, ...) are modelled over their ASCII
  semantics, which is exact for every input the theorems are instantiated at.
* Backend SDK calls (`self.client.*`) are the leaf I/O of each adapter
  operation.  They are modelled as explicit parameters: a listing call is a
  function `String → Except String (List PcsItem)` where `Except.error msg`
  models the call raising an exception with message `msg`; one-shot calls are
  modelled by their outcome (`Except String ...`).  Python dictionaries with
  insertion-order iteration are modelled as association lists with
  Python's update-in-place semantics (`pyDictInsert`).
* Integer error codes are `Int` (Python ints are unbounded). -/

/-- Python `s.split(sep)` for a one-character separator:
`"" ↦ [""]`, `"/" ↦ ["", ""]`, `"a//b" ↦ ["a", "", "b"]`. -/
def splitOnChar (sep : Char) : List Char → List (List Char)
  | [] => [[]]
  | c :: rest =>
    let r := splitOnChar sep rest
    if c = sep then [] :: r
    else
      match r with
      | h :: t => (c :: h) :: t
      | [] => [[c]]

/-- Python `"/".join(segs)`. -/
def joinSlash : List (List Char) → List Char
  | [] => []
  | [s] => s
  | s :: rest => s ++ '/' :: joinSlash rest

/-- Python `path.split('/')[-1]` (last path segment). -/
def lastSeg (s : String) : String :=
  String.mk ((splitOnChar '/' s.data).getLastD [])

/-- Python `s.startswith("/")`. -/
def startsSlash (s : String) : Bool :=
  match s.data with
  | '/' :: _ => true
  | _ => false

/-- Python `s.rstrip("/")`. -/
def rstripSlash (s : String) : String :=
  String.mk (s.data.reverse.dropWhile (· = '/')).reverse

/-- Python `s.strip("/")`. -/
def stripSlash (s : String) : String :=
  String.mk (((s.data.dropWhile (· = '/')).reverse.dropWhile (· = '/')).reverse)

/-- Python `s.strip()` (whitespace at both ends, ASCII model). -/
def stripSpace (s : String) : String :=
  String.mk (((s.data.dropWhile Char.isWhitespace).reverse.dropWhile Char.isWhitespace).reverse)

/-- Python `s.isdigit()` (ASCII model): nonempty and all characters digits. -/
def isDigitsOnly (s : String) : Bool :=
  !s.data.isEmpty && s.data.all Char.isDigit

/-- Match a literal at the head of a character list, returning the remainder. -/
def matchLit : List Char → List Char → Option (List Char)
  | [], rest => some rest
  | _ :: _, [] => none
  | a :: as, b :: bs => if a = b then matchLit as bs else none

/-- Python `needle in haystack` (substring containment). -/
def occursIn (needle : List Char) : List Char → Bool
  | [] => (matchLit needle []).isSome
  | l@(_ :: t) => (matchLit needle l).isSome || occursIn needle t

/-- Character class `[a-zA-Z0-9]`. -/
def isAlnumChar (c : Char) : Bool := c.isAlpha || c.isDigit

/-- Character class `[a-zA-Z0-9_-]`. -/
def isAlnumDashChar (c : Char) : Bool := isAlnumChar c || c = '_' || c = '-'

/-- Python regex `\w` (ASCII model): letters, digits, underscore. -/
def isWordChar (c : Char) : Bool := isAlnumChar c || c = '_'

/-- Characters kept by `re.sub(r'[^\w\s\.]', '', s)`: word characters,
whitespace and the dot. -/
def keepNormChar (c : Char) : Bool := isWordChar c || c.isWhitespace || c = '.'

/-- The name-normalisation fallback of `BaiduAdapter.save_file`:
`re.sub(r'[^\w\s\.]', '', name)`. -/
def cleanName (s : String) : String := String.mk (s.data.filter keepNormChar)

/-- Try `re.search(lit + cls+)` at the current position: the first literal
alternative that matches and is followed by at least one class character
yields the maximal run of class characters as the captured group. -/
def capHere (lits : List (List Char)) (cls : Char → Bool) (l : List Char) :
    Option (List Char) :=
  match lits with
  | [] => none
  | lit :: more =>
    match matchLit lit l with
    | some rest =>
      let run := rest.takeWhile cls
      if run.isEmpty then capHere more cls l else some run
    | none => capHere more cls l

/-- `re.search` for a pattern `(?:lit₁|lit₂|...)(cls+)`: scan positions left to
right, return the leftmost captured group. -/
def searchCap (lits : List (List Char)) (cls : Char → Bool) : List Char → Option (List Char)
  | [] => none
  | l@(_ :: t) =>
    match capHere lits cls l with
    | some run => some run
    | none => searchCap lits cls t

/-- `re.search(r"#([a-zA-Z0-9]{4})\b", url)`: a hash sign, exactly four
alphanumerics, then a word boundary. -/
def searchHash4 : List Char → Option (List Char)
  | [] => none
  | '#' :: a :: b :: c :: d :: rest =>
    if isAlnumChar a && isAlnumChar b && isAlnumChar c && isAlnumChar d &&
        (match rest with
         | [] => true
         | e :: _ => !isWordChar e) then
      some [a, b, c, d]
    else searchHash4 (a :: b :: c :: d :: rest)
  | _ :: t => searchHash4 t

/-- Decimal digits to a natural number. -/
def digitsToNat (l : List Char) : Nat :=
  l.foldl (fun acc c => acc * 10 + (c.toNat - '0'.toNat)) 0

/-- Try `re.search(r"errno[=:]?\s*(-?\d+)", msg)` at the current position. -/
def errnoHere (l : List Char) : Option Int :=
  match matchLit ['e', 'r', 'r', 'n', 'o'] l with
  | none => none
  | some r1 =>
    let r2 := match r1 with
      | c :: t => if c = '=' || c = ':' then t else r1
      | [] => r1
    let r3 := r2.dropWhile Char.isWhitespace
    match r3 with
    | '-' :: t =>
      let ds := t.takeWhile Char.isDigit
      if ds.isEmpty then none else some (-(digitsToNat ds : Int))
    | _ =>
      let ds := r3.takeWhile Char.isDigit
      if ds.isEmpty then none else some ((digitsToNat ds : Int))

/-- `re.search(r"errno[=:]?\s*(-?\d+)", msg)`, the parsed integer group. -/
def searchErrno : List Char → Option Int
  | [] => none
  | l@(_ :: t) =>
    match errnoHere l with
    | some v => some v
    | none => searchErrno t

/-- Python `s.split(sep)[-1]` for a nonempty, non-self-overlapping
separator: the suffix after the rightmost occurrence of `sep` (the whole
string when `sep` does not occur). -/
def afterLastSeq (sep : List Char) : List Char → List Char
  | [] => []
  | l@(c :: t) =>
    if occursIn sep t then afterLastSeq sep t
    else
      match matchLit sep l with
      | some rest => rest
      | none => c :: t

/-- Python dict insertion `d[k] = v`: an existing key keeps its position and
gets the new value, a new key is appended (insertion order preserved). -/
def pyDictInsert (d : List (String × String)) (k v : String) : List (String × String) :=
  if d.any (fun p => p.1 = k) then
    d.map (fun p => if p.1 = k then (k, v) else p)
  else d ++ [(k, v)]

/-- Python `d.get(k)`. -/
def pyDictGet (d : List (String × String)) (k : String) : Option String :=
  (d.find? (fun p => p.1 = k)).map (fun p => p.2)

/-- One entry of a `baidupcs` listing (`item.path`, `item.fs_id`, `item.is_dir`);
used both for own-drive listings and for shared-tree listings (the share
metadata `uk`/`share_id`/`bdstoken` is absorbed into the listing function). -/
structure PcsItem where
  path : String
  fsId : Nat
  isDir : Bool
deriving DecidableEq, Repr

/-- A backend listing call: `Except.error msg` models a raised exception. -/
def ListFn : Type := String → Except String (List PcsItem)

/-- Scan the items of one listed directory (`BaiduAdapter._resolve_fid_to_path`
inner loop): return the path of the first item whose `str(fs_id)` equals the
target, else accumulate the sub-directory paths in encounter order. -/
def scanDirItems (fid : String) : List PcsItem → List String → Option String × List String
  | [], acc => (none, acc)
  | it :: rest, acc =>
    if Nat.repr it.fsId = fid then (some it.path, acc)
    else scanDirItems fid rest (acc ++ if it.isDir then [it.path] else [])

/-- Scan one BFS frontier of `BaiduAdapter._resolve_fid_to_path`: list each
directory (a raised exception skips that directory), stop at the first match. -/
def scanFrontier (lf : ListFn) (fid : String) : List String → List String → Option String × List String
  | [], acc => (none, acc)
  | d :: rest, acc =>
    match lf d with
    | .error _ => scanFrontier lf fid rest acc
    | .ok items =>
      match scanDirItems fid items acc with
      | (some p, _) => (some p, [])
      | (none, acc') => scanFrontier lf fid rest acc'

/-- The depth-bounded BFS loop of `BaiduAdapter._resolve_fid_to_path`
(`for depth in range(max_depth)`); exhausting the bound, or an empty next
frontier, falls back to the root `"/"`. -/
def bfsOwn (lf : ListFn) (fid : String) : List String → Nat → String
  | _, 0 => "/"
  | dirs, n + 1 =>
    match scanFrontier lf fid dirs [] with
    | (some p, _) => p
    | (none, nextDirs) =>
      if nextDirs.isEmpty then "/" else bfsOwn lf fid nextDirs n

/-- Instrumented variant of `bfsOwn` that also returns the list of frontiers
actually visited (used to state the depth-bound property). -/
def bfsOwnTrace (lf : ListFn) (fid : String) : List String → Nat → String × List (List String)
  | _, 0 => ("/", [])
  | dirs, n + 1 =>
    match scanFrontier lf fid dirs [] with
    | (some p, _) => (p, [dirs])
    | (none, nextDirs) =>
      if nextDirs.isEmpty then ("/", [dirs])
      else
        let r := bfsOwnTrace lf fid nextDirs n
        (r.1, dirs :: r.2)

/-- `BaiduAdapter._resolve_fid_to_path`: resolve a fid to a Baidu API path.
A path-shaped fid short-circuits, empty/"0" is the root, a malformed fid
falls back to the root (with a logged warning in the source), a numeric fid
is searched by BFS from the root with depth bound 10. -/
def resolveFidToPath (lf : ListFn) (clientOk : Bool) (fid : String) : String :=
  if fid = "" || fid = "0" then "/"
  else if startsSlash fid then fid
  else if !isDigitsOnly fid then "/"
  else if !clientOk then "/"
  else bfsOwn lf fid ["/"] 10

/-- One breadcrumb entry `{"fid": ..., "file_name": ...}`. -/
structure Crumb where
  fid : String
  crumbName : String
deriving DecidableEq, Repr

/-- The breadcrumb entry built by `_bfs_share_tree` for one listed item. -/
def crumbOf (it : PcsItem) : Crumb :=
  { fid := Nat.repr it.fsId, crumbName := lastSeg it.path }

/-- Scan the items of one listed shared directory (`_bfs_share_tree` inner
loop): each item extends the current breadcrumb; the first item whose
`str(fs_id)` equals the target is returned with its breadcrumb, otherwise
sub-directories are queued with their breadcrumbs in encounter order. -/
def scanShareItems (fid : String) (bc : List Crumb) :
    List PcsItem → List (String × List Crumb) →
    Option (String × List Crumb) × List (String × List Crumb)
  | [], acc => (none, acc)
  | it :: rest, acc =>
    let nb := bc ++ [crumbOf it]
    if Nat.repr it.fsId = fid then (some (it.path, nb), acc)
    else scanShareItems fid bc rest (acc ++ if it.isDir then [(it.path, nb)] else [])

/-- Scan one BFS level of `_bfs_share_tree`: list each queued directory (a
raised exception skips it), stop at the first match. -/
def scanShareQueue (lsh : ListFn) (fid : String) :
    List (String × List Crumb) → List (String × List Crumb) →
    Option (String × List Crumb) × List (String × List Crumb)
  | [], acc => (none, acc)
  | (p, bc) :: rest, acc =>
    match lsh p with
    | .error _ => scanShareQueue lsh fid rest acc
    | .ok items =>
      match scanShareItems fid bc items acc with
      | (some r, _) => (some r, [])
      | (none, acc') => scanShareQueue lsh fid rest acc'

/-- The depth-bounded level loop of `_bfs_share_tree`
(`for _ in range(max_depth)`); exhausting the bound, or an empty next queue,
yields the not-found result `("", [])`. -/
def bfsShareLoop (lsh : ListFn) (fid : String) :
    List (String × List Crumb) → Nat → String × List Crumb
  | _, 0 => ("", [])
  | queue, n + 1 =>
    match scanShareQueue lsh fid queue [] with
    | (some r, _) => r
    | (none, nextQ) =>
      if nextQ.isEmpty then ("", []) else bfsShareLoop lsh fid nextQ n

/-- Instrumented variant of `bfsShareLoop` returning the visited levels. -/
def bfsShareTrace (lsh : ListFn) (fid : String) :
    List (String × List Crumb) → Nat → (String × List Crumb) × List (List (String × List Crumb))
  | _, 0 => (("", []), [])
  | queue, n + 1 =>
    match scanShareQueue lsh fid queue [] with
    | (some r, _) => (r, [queue])
    | (none, nextQ) =>
      if nextQ.isEmpty then (("", []), [queue])
      else
        let r := bfsShareTrace lsh fid nextQ n
        (r.1, queue :: r.2)

/-- The initial BFS queue of `_bfs_share_tree`: every root-level directory of
the share, each carrying its own one-entry breadcrumb. -/
def shareRootQueue (roots : List PcsItem) : List (String × List Crumb) :=
  roots.filterMap (fun it => if it.isDir then some (it.path, [crumbOf it]) else none)

/-- `BaiduAdapter._bfs_share_tree`: look for `target_fid` among the root-level
entries first, then BFS with depth bound `maxDepth` (callers use 5).
Not found yields `("", [])`. -/
def bfsShareTree (lsh : ListFn) (roots : List PcsItem) (fid : String) (maxDepth : Nat) :
    String × List Crumb :=
  match roots.find? (fun it => Nat.repr it.fsId = fid) with
  | some it => (it.path, [crumbOf it])
  | none => bfsShareLoop lsh fid (shareRootQueue roots) maxDepth

/-- `BaiduAdapter._resolve_share_fid_to_path`: resolve a share fid to a path.
`sp` models `access_shared` followed by `shared_paths` (an exception in
either is the `error` case), `lsh` models `list_shared_paths`. -/
def resolveShareFidToPath (sp : Except String (List PcsItem)) (lsh : ListFn)
    (clientOk : Bool) (fid : String) : String :=
  if fid = "" || fid = "0" || fid = "/" then "/"
  else if startsSlash fid then fid
  else if !isDigitsOnly fid then "/"
  else if !clientOk then "/"
  else
    match sp with
    | .error _ => "/"
    | .ok [] => "/"
    | .ok (r :: rs) =>
      let pr := bfsShareTree lsh (r :: rs) fid 5
      if pr.1 = "" then "/" else pr.1

/-- `AliyunAdapter.extract_url`: share id from
`(?:aliyundrive|alipan)\.com/s/([a-zA-Z0-9]+)`, passcode from
`(?:pwd|password|code)=([a-zA-Z0-9]+)` (default `""`), starting directory
from `/folder/([a-zA-Z0-9]+)` (default `"root"`), empty breadcrumb.
Total by construction: it never raises. -/
def aliyunExtractUrl (url : String) : Option String × String × String × List Crumb :=
  let u := url.data
  let pwdId := (searchCap [("aliyundrive.com/s/").data, ("alipan.com/s/").data]
    isAlnumChar u).map String.mk
  let passcode := ((searchCap [("pwd=").data, ("password=").data, ("code=").data]
    isAlnumChar u).map String.mk).getD ""
  let pdirFid := ((searchCap [("/folder/").data] isAlnumChar u).map String.mk).getD "root"
  (pwdId, passcode, pdirFid, [])

/-- `BaiduAdapter.extract_url`: share id from `/s/([a-zA-Z0-9_-]+)` or
`surl=([a-zA-Z0-9_-]+)` (prefixed with `"1"`), passcode from
`(?:pwd|password)=([a-zA-Z0-9]+)` or `#([a-zA-Z0-9]{4})\b`, starting
directory from the word run after the last `#/list/share/` (default `"/"`),
empty breadcrumb.  Total by construction: it never raises. -/
def baiduExtractUrl (url : String) : Option String × String × String × List Crumb :=
  let u := url.data
  let pwdId : Option String :=
    match searchCap [("/s/").data] isAlnumDashChar u with
    | some cap => some (String.mk cap)
    | none =>
      match searchCap [("surl=").data] isAlnumDashChar u with
      | some cap => some ("1" ++ String.mk cap)
      | none => none
  let passcode : String :=
    match searchCap [("pwd=").data, ("password=").data] isAlnumChar u with
    | some cap => String.mk cap
    | none =>
      match searchHash4 u with
      | some cap => String.mk cap
      | none => ""
  let pdirFid : String :=
    if occursIn ("#/list/share/").data u then
      let raw := afterLastSeq ("#/list/share/").data u
      let run := raw.takeWhile isWordChar
      if run.isEmpty then "/" else String.mk run
    else "/"
  (pwdId, passcode, pdirFid, [])

/-- `XunleiAdapter.extract_url`: share id from
`pan\.xunlei\.com/s/([a-zA-Z0-9_-]+)`, passcode from
`(?:pwd|password)=([a-zA-Z0-9]+)` (default `""`), starting directory from
`#/list/([a-zA-Z0-9_-]+)` (default `"0"`), empty breadcrumb.
Total by construction: it never raises. -/
def xunleiExtractUrl (url : String) : Option String × String × String × List Crumb :=
  let u := url.data
  let pwdId := (searchCap [("pan.xunlei.com/s/").data] isAlnumDashChar u).map String.mk
  let passcode := ((searchCap [("pwd=").data, ("password=").data]
    isAlnumChar u).map String.mk).getD ""
  let pdirFid := ((searchCap [("#/list/").data] isAlnumDashChar u).map String.mk).getD "0"
  (pwdId, passcode, pdirFid, [])

/-- `BaiduAdapter.ERROR_CODES` together with the default of
`BaiduAdapter._get_error_message`. -/
def errorCodeMsg (errno : Int) : String :=
  if errno = -6 then "认证失败，请检查Cookie是否有效"
  else if errno = -65 then "访问频率过高，请稍后重试"
  else if errno = 145 then "分享链接已失效"
  else if errno = 200025 then "提取码错误"
  else if errno = 31066 then "目录不存在"
  else if errno = 31061 then "文件已存在"
  else if errno = 31299 then "文件夹创建失败"
  else if errno = -9 then "文件不存在或已被删除"
  else if errno = -3 then "转存文件数超过限制"
  else if errno = -7 then "分享文件夹等待审核中"
  else if errno = -21 then "您的账户被锁定"
  else if errno = 2 then "参数错误"
  else if errno = 111 then "有其他异步任务正在执行"
  else if errno = 12 then "转存文件失败"
  else if errno = 4 then "分享提取码错误"
  else if errno = 105 then "分享链接已过期"
  else if errno = -1 then "分享链接不存在"
  else "未知错误 (errno=" ++ toString errno ++ ")"

/-- One `{fid, file_name}` entry of an `ls_dir` result list. -/
structure LsEntry where
  fid : String
  fname : String
deriving DecidableEq, Repr

/-- The part of an `ls_dir` result envelope that `save_file` consumes:
the `code` and the `data.list` entries. -/
structure LsRes where
  code : Int
  entries : List LsEntry
deriving DecidableEq, Repr

/-- Result envelope of `save_file`: `{code, message, data}` where the data
payload carries `save_as_top_fids` and `task_id` only on the success path. -/
structure SaveEnvelope where
  code : Int
  msg : String
  saveAsTopFids : Option (List String)
  taskId : Option String
  syncFlag : Bool
deriving DecidableEq, Repr

/-- I/O trace of one `BaiduAdapter.save_file` call.  `beforeDir` and
`afterDir` are the two `self.ls_dir(to_pdir_fid)` results (before the
transfer and after the settle delay).  `shareKnown` is
`share_id in self._share_info`, `stokenCode`/`stokenMsg` the result of
`self.get_stoken`.  `sharedPathsR` is `self.client.shared_paths` (`error` =
raised).  `transferR` models the `fs_ids` conversion plus
`self.client.transfer_shared_paths`: `error msg` is a raised exception,
`ok b` gives the truthiness `b` of the returned value. -/
structure BaiduSaveCtx where
  clientOk : Bool
  beforeDir : LsRes
  shareKnown : Bool
  stokenCode : Int
  stokenMsg : String
  sharedPathsR : Except String (List PcsItem)
  transferR : Except String Bool
  afterDir : LsRes
deriving Repr

/-- The `except` handler of `BaiduAdapter.save_file`: parse an errno out of
the exception message, else generic code 1. -/
def baiduSaveErr (e : String) : SaveEnvelope :=
  match searchErrno e.data with
  | some n => { code := n, msg := errorCodeMsg n, saveAsTopFids := none,
                taskId := none, syncFlag := false }
  | none => { code := 1, msg := "转存失败: " ++ e, saveAsTopFids := none,
              taskId := none, syncFlag := false }

/-- The pre-transfer snapshot `before_items` of `save_file`:
`{fid: file_name}` over the before-listing when its code is 0. -/
def saveBeforeItems (ctx : BaiduSaveCtx) : List (String × String) :=
  if ctx.beforeDir.code = 0 then
    ctx.beforeDir.entries.foldl (fun d e => pyDictInsert d e.fid e.fname) []
  else []

/-- The post-transfer map `name_to_new_fid` of `save_file`:
`{file_name: fid}` over the after-listing entries whose fid is nonempty and
not a key of the pre-transfer snapshot. -/
def saveNameMap (ctx : BaiduSaveCtx) : List (String × String) :=
  if ctx.afterDir.code = 0 then
    ctx.afterDir.entries.foldl
      (fun d e =>
        if e.fid ≠ "" ∧ (saveBeforeItems ctx).all (fun p => p.1 ≠ e.fid) then
          pyDictInsert d e.fname e.fid
        else d)
      []
  else []

/-- One slot of the `save_as_top_fids` assembly of `save_file`: exact
filename lookup, then the normalized-name fallback over the map in insertion
order, then the explicit empty marker. -/
def reconcileOne (d : List (String × String)) (fname : String) : String :=
  let newFid := (pyDictGet d fname).getD ""
  if newFid ≠ "" then newFid
  else
    match d.find? (fun kv => cleanName kv.1 = cleanName fname) with
    | some kv => kv.2
    | none => ""

/-- `BaiduAdapter.save_file` over the I/O trace `ctx` (the destination
directory reference and the resolved remote paths only feed the abstracted
backend calls and are absorbed into `ctx`).  `pwdId`/`stoken` determine the
share id used in the task id; `fileNames` is the `file_names` argument
(Python `None` and `[]` are both the falsy empty list). -/
def baiduSaveFile (ctx : BaiduSaveCtx) (pwdId stoken : String)
    (fileNames : List String) : SaveEnvelope :=
  if !ctx.clientOk then
    { code := 1, msg := "百度网盘客户端未初始化", saveAsTopFids := none,
      taskId := none, syncFlag := false }
  else
    let parts := if stoken ≠ "" then (splitOnChar ':' stoken.data).map String.mk
      else [pwdId, ""]
    let shareId := parts.getD 0 ""
    if ¬ ctx.shareKnown ∧ ctx.stokenCode ≠ 0 then
      { code := 1, msg := ctx.stokenMsg, saveAsTopFids := none,
        taskId := none, syncFlag := false }
    else
      match ctx.sharedPathsR with
      | .error e => baiduSaveErr e
      | .ok [] =>
        { code := 1, msg := "转存失败: 链接失效或网络异常", saveAsTopFids := none,
          taskId := none, syncFlag := false }
      | .ok (_ :: _) =>
        match ctx.transferR with
        | .error e => baiduSaveErr e
        | .ok truthy =>
          let nameMap := saveNameMap ctx
          let savedFids :=
            if fileNames ≠ [] then fileNames.map (reconcileOne nameMap)
            else nameMap.map (fun kv => kv.2)
          if !truthy then
            { code := 0, msg := "success", saveAsTopFids := some savedFids,
              taskId := some ("baidu_sync_" ++ shareId), syncFlag := true }
          else
            { code := 1, msg := "转存失败", saveAsTopFids := none,
              taskId := none, syncFlag := false }

/-- Simple `{code, message}` result envelope. -/
structure SimpleRes where
  code : Int
  msg : String
deriving DecidableEq, Repr

/-- `{status, code, message}` result envelope (`get_stoken`, `query_task`). -/
structure StatusRes where
  status : Int
  code : Int
  msg : String
deriving DecidableEq, Repr

/-- Result of an `ls_dir` call: envelope plus the converted entry list. -/
structure LsEnvelope where
  code : Int
  msg : String
  entries : List LsEntry
deriving DecidableEq, Repr

/-- `BaiduAdapter.ls_dir`: resolve the fid to a path (the resolver catches
its own listing exceptions), then list it; a raised listing exception is
caught and converted to a code-1 envelope.  Entries use the item path as fid
and the last path segment as file name. -/
def baiduLsDir (lf : ListFn) (clientOk : Bool) (pdirFid : String) : LsEnvelope :=
  if !clientOk then { code := 1, msg := "百度网盘客户端未初始化", entries := [] }
  else
    let remote := resolveFidToPath lf clientOk (if pdirFid ≠ "" then pdirFid else "0")
    match lf remote with
    | .error e => { code := 1, msg := "列出目录失败: " ++ e, entries := [] }
    | .ok items =>
      { code := 0, msg := "success",
        entries := items.map (fun it => { fid := it.path, fname := lastSeg it.path }) }

/-- One item of an `aligo` listing (`item.file_id`, `item.name`). -/
structure AliItem where
  fileId : String
  itemName : String
deriving DecidableEq, Repr

/-- `AliyunAdapter.ls_dir` at the operation boundary: the paginated
`get_file_list` loop is abstracted to its overall outcome `fetch` (the
concatenation of all pages, or the first raised exception). -/
def aliLsDir (clientOk : Bool) (fetch : Except String (List AliItem)) : LsEnvelope :=
  if !clientOk then { code := 1, msg := "阿里云盘客户端未初始化", entries := [] }
  else
    match fetch with
    | .error e => { code := 1, msg := "列出目录失败: " ++ e, entries := [] }
    | .ok items =>
      { code := 0, msg := "success",
        entries := items.map (fun it => { fid := it.fileId, fname := it.itemName }) }

/-- `BaiduAdapter.get_stoken`: `access` models `client.access_shared`; a
raised exception has its message scanned for an errno, which is returned as
the code with its mapped message, else the generic failure envelope. -/
def baiduGetStoken (clientOk : Bool) (access : Except String Unit) : StatusRes :=
  if !clientOk then { status := 500, code := 1, msg := "百度网盘客户端未初始化" }
  else
    match access with
    | .ok _ => { status := 200, code := 0, msg := "success" }
    | .error e =>
      match searchErrno e.data with
      | some n => { status := 400, code := n, msg := errorCodeMsg n }
      | none => { status := 400, code := 1, msg := "分享链接无效或已失效" }

/-- `AliyunAdapter.get_stoken`: `tok` models `client.get_share_token`
(`ok b` gives the truthiness of the returned token object). -/
def aliGetStoken (clientOk : Bool) (tok : Except String Bool) : StatusRes :=
  if !clientOk then { status := 500, code := 1, msg := "阿里云盘客户端未初始化" }
  else
    match tok with
    | .ok true => { status := 200, code := 0, msg := "success" }
    | .ok false => { status := 400, code := 1, msg := "分享链接无效或已失效" }
    | .error e =>
      if occursIn ("ShareLink is cancelled").data e.data then
        { status := 400, code := 1, msg := "分享链接已取消" }
      else if occursIn ("share_pwd").data e.toLower.data ||
          occursIn ("密码").data e.data then
        { status := 400, code := 1, msg := "提取码错误" }
      else if occursIn ("not found").data e.toLower.data then
        { status := 400, code := 1, msg := "分享链接不存在" }
      else { status := 400, code := 1, msg := "分享链接无效或已失效" }

/-- `BaiduAdapter.get_detail` at the operation boundary: the try body is
abstracted to its outcome; a raised exception is caught and converted to the
code-1 envelope. -/
def baiduGetDetail (clientOk : Bool) (body : Except String (List LsEntry)) : LsEnvelope :=
  if !clientOk then { code := 1, msg := "百度网盘客户端未初始化", entries := [] }
  else
    match body with
    | .error e => { code := 1, msg := "获取分享详情失败: " ++ e, entries := [] }
    | .ok l => { code := 0, msg := "success", entries := l }

/-- `AliyunAdapter.get_detail` at the operation boundary. -/
def aliGetDetail (clientOk : Bool) (body : Except String (List LsEntry)) : LsEnvelope :=
  if !clientOk then { code := 1, msg := "阿里云盘客户端未初始化", entries := [] }
  else
    match body with
    | .error e => { code := 1, msg := "获取分享详情失败: " ++ e, entries := [] }
    | .ok l => { code := 0, msg := "success", entries := l }

/-- `BaiduAdapter.rename`: resolve the fid (root means the resolution
failed), then call `client.rename`; a raised exception is caught. -/
def baiduRename (lf : ListFn) (clientOk : Bool) (fid : String)
    (rn : Except String Unit) : SimpleRes :=
  if !clientOk then { code := 1, msg := "百度网盘客户端未初始化" }
  else
    let oldPath := resolveFidToPath lf clientOk fid
    if oldPath = "/" then { code := 1, msg := "未找到文件路径，请先刷新目录" }
    else
      match rn with
      | .ok _ => { code := 0, msg := "success" }
      | .error e => { code := 1, msg := "重命名失败: " ++ e }

/-- `AliyunAdapter.rename`: `rn` models `client.rename_file` (`ok b` is the
truthiness of the result). -/
def aliRename (clientOk : Bool) (rn : Except String Bool) : SimpleRes :=
  if !clientOk then { code := 1, msg := "阿里云盘客户端未初始化" }
  else
    match rn with
    | .ok true => { code := 0, msg := "success" }
    | .ok false => { code := 1, msg := "重命名失败" }
    | .error e => { code := 1, msg := "重命名失败: " ++ e }

/-- `BaiduAdapter.delete`: resolve every fid, keep the non-root paths, then
call `client.remove`; a raised exception is caught. -/
def baiduDelete (lf : ListFn) (clientOk : Bool) (fids : List String)
    (rm : Except String Unit) : SimpleRes :=
  if !clientOk then { code := 1, msg := "百度网盘客户端未初始化" }
  else
    let paths := (fids.map (resolveFidToPath lf clientOk)).filter (fun p => p ≠ "/")
    if paths.isEmpty then { code := 1, msg := "未找到要删除的文件" }
    else
      match rm with
      | .ok _ => { code := 0, msg := "success" }
      | .error e => { code := 1, msg := "删除失败: " ++ e }

/-- `AliyunAdapter.delete`: `rm` models `client.batch_move_to_trash`. -/
def aliDelete (clientOk : Bool) (rm : Except String Bool) : SimpleRes :=
  if !clientOk then { code := 1, msg := "阿里云盘客户端未初始化" }
  else
    match rm with
    | .ok true => { code := 0, msg := "success" }
    | .ok false => { code := 1, msg := "删除失败" }
    | .error e => { code := 1, msg := "删除失败: " ++ e }

/-- `AliyunAdapter.save_file` at the operation boundary: `tr` models
`client.share_file_saveto_drive` (`ok b` is the truthiness of the result).
A `QuotaExhausted` exception maps to a quota message, a `FileAlreadyExists`
exception is deliberately mapped to success (code 0). -/
def aliSaveFile (clientOk : Bool) (tr : Except String Bool) : SimpleRes :=
  if !clientOk then { code := 1, msg := "阿里云盘客户端未初始化" }
  else
    match tr with
    | .ok true => { code := 0, msg := "success" }
    | .ok false => { code := 1, msg := "转存失败" }
    | .error e =>
      if occursIn ("QuotaExhausted").data e.data then
        { code := 1, msg := "网盘空间不足" }
      else if occursIn ("FileAlreadyExists").data e.data then
        { code := 0, msg := "文件已存在" }
      else { code := 1, msg := "转存失败: " ++ e }

/-- Result envelope of `mkdir`: `{code, message, data: {fid, file_name}}`. -/
structure MkdirRes where
  code : Int
  msg : String
  fid : String
  fname : String
deriving DecidableEq, Repr

/-- `BaiduAdapter.mkdir` at the operation boundary: normalize the path, call
`client.makedir` (outcome `mk`); success and an "already exists" exception
(message containing `"31061"` or, lower-cased, `"already"`) both return
code 0 with the path as fid, any other exception returns code 1. -/
def baiduMkdirCore (clientOk : Bool) (mk : Except String Unit) (dirPath : String) :
    MkdirRes :=
  if !clientOk then { code := 1, msg := "百度网盘客户端未初始化", fid := "", fname := "" }
  else
    let dp := if startsSlash dirPath then dirPath else "/" ++ dirPath
    let dirName := lastSeg (rstripSlash dp)
    match mk with
    | .ok _ => { code := 0, msg := "success", fid := dp, fname := dirName }
    | .error e =>
      if occursIn ("31061").data e.data || occursIn ("already").data e.toLower.data then
        { code := 0, msg := "目录已存在", fid := dp, fname := dirName }
      else { code := 1, msg := "创建目录失败: " ++ e, fid := "", fname := "" }

/-- Idealized Baidu backend directory state: the set of existing directory
paths.  `makedir` on an existing path raises with the errno the adapter's
own `ERROR_CODES` table documents for "file already exists" (31061),
otherwise creates the directory. -/
def baiduMakedir (st : List String) (p : String) : Except String Unit × List String :=
  if p ∈ st then (.error "error_code: 31061, message: file(s) already exist", st)
  else (.ok (), st ++ [p])

/-- `BaiduAdapter.mkdir` against the idealized backend state. -/
def baiduMkdirSt (st : List String) (dirPath : String) : MkdirRes × List String :=
  let dp := if startsSlash dirPath then dirPath else "/" ++ dirPath
  let r := baiduMakedir st dp
  (baiduMkdirCore true r.1 dirPath, r.2)

/-- One directory entry of the idealized Aliyun backend: parent file id,
display name, own file id. -/
structure AliEntry where
  parentId : String
  ename : String
  fid : String
deriving DecidableEq, Repr

/-- Idealized Aliyun backend state: the directory entries in creation order
plus a counter supplying fresh ids.  `create_folder` always succeeds. -/
structure AliState where
  entries : List AliEntry
  ctr : Nat
deriving DecidableEq, Repr

/-- The idealized `client.get_file_list(parent_file_id)`: the entries of one
parent, in backend order. -/
def aliListDir (st : AliState) (parent : String) : List AliEntry :=
  st.entries.filter (fun e => e.parentId = parent)

/-- `AliyunAdapter._find_file_in_dir` against the idealized backend: list
the parent, return the first entry with the requested name. -/
def aliFindFile (st : AliState) (parent nm : String) : Option AliEntry :=
  (aliListDir st parent).find? (fun e => e.ename = nm)

/-- The idealized `client.create_folder(name, parent_file_id)`: returns the
fresh file id and the new state. -/
def aliCreateFolder (st : AliState) (parent nm : String) : String × AliState :=
  let fid := "ali_" ++ Nat.repr st.ctr
  (fid, { entries := st.entries ++ [{ parentId := parent, ename := nm, fid := fid }],
          ctr := st.ctr + 1 })

/-- The segment loop of `AliyunAdapter.mkdir`: skip empty segments, reuse an
existing directory, else create one; returns the final parent id, the last
created/reused id, and the final backend state. -/
def aliMkdirLoop (st : AliState) : List String → String → String → String × String × AliState
  | [], parent, created => (parent, created, st)
  | part :: rest, parent, created =>
    if part = "" then aliMkdirLoop st rest parent created
    else
      match aliFindFile st parent part with
      | some e => aliMkdirLoop st rest e.fid e.fid
      | none =>
        let r := aliCreateFolder st parent part
        aliMkdirLoop r.2 rest r.1 r.1

/-- `AliyunAdapter.mkdir` against the idealized backend state: split the
path, walk/create each segment from `"root"`, return the final id and the
last segment as display name. -/
def aliMkdirSt (st : AliState) (dirPath : String) : MkdirRes × AliState :=
  let parts := (splitOnChar '/' (stripSlash dirPath).data).map String.mk
  let r := aliMkdirLoop st parts "root" ""
  let dirName := if parts ≠ [] then parts.getLastD "" else "新建文件夹"
  ({ code := 0, msg := "success", fid := r.2.1, fname := dirName }, r.2.2)

/-- One `{file_path, fid}` result entry of `get_fids`. -/
structure FidEntry where
  filePath : String
  fid : String
deriving DecidableEq, Repr

/-- An Aliyun listing call for `get_fids` resolution: `error` models a
raised exception inside `_find_file_in_dir` (swallowed, treated as absent). -/
def AliLsFn : Type := String → Except String (List AliEntry)

/-- `AliyunAdapter._find_file_in_dir` over an abstract listing call. -/
def aliFindFileFn (lsf : AliLsFn) (parent nm : String) : Option AliEntry :=
  match lsf parent with
  | .error _ => none
  | .ok items => items.find? (fun e => e.ename = nm)

/-- The per-segment descent of `AliyunAdapter.get_fids`: resolve the chain
of segments from `"root"`, `none` as soon as one segment is missing. -/
def aliChase (lsf : AliLsFn) : List String → String → Option String
  | [], cur => some cur
  | part :: rest, cur =>
    if part = "" then aliChase lsf rest cur
    else
      match aliFindFileFn lsf cur part with
      | some e => aliChase lsf rest e.fid
      | none => none

/-- One step of the `get_fids` result loop: append the entry when the path
resolved, keep the accumulator otherwise. -/
def appendResolved {β : Type} (f : String → Option β) (acc : List β) (p : String) :
    List β :=
  match f p with
  | some e => acc ++ [e]
  | none => acc

/-- Resolution of one input path by `AliyunAdapter.get_fids`: root maps to
`("/", "root")`, other paths are stripped, split and chased segment by
segment; an unresolvable path yields `none` (the loop appends nothing). -/
def aliResolveOne (lsf : AliLsFn) (path : String) : Option FidEntry :=
  if path = "" ∨ path = "/" then some { filePath := "/", fid := "root" }
  else
    let p := stripSlash path
    let parts := (splitOnChar '/' p.data).map String.mk
    match aliChase lsf parts "root" with
    | some cid => some { filePath := "/" ++ p, fid := cid }
    | none => none

/-- `AliyunAdapter.get_fids`: the Python result-list loop, appending one
entry per resolved path. -/
def aliGetFids (lsf : AliLsFn) (clientOk : Bool) (paths : List String) : List FidEntry :=
  if !clientOk then []
  else paths.foldl (appendResolved (aliResolveOne lsf)) []

/-- Resolution of one input path by `BaiduAdapter.get_fids`: root maps to
`("/", "/")`; other paths are whitespace-stripped, slash-prefixed, and
checked by listing the parent directory for the target name; a listing
exception or a missing name yields `none` (the loop appends nothing). -/
def baiduResolveOne (lf : ListFn) (path : String) : Option FidEntry :=
  if path = "" ∨ path = "/" then some { filePath := "/", fid := "/" }
  else
    let p1 := stripSpace path
    let p2 := if startsSlash p1 then p1 else "/" ++ p1
    let segs := splitOnChar '/' (rstripSlash p2).data
    let joined := joinSlash segs.dropLast
    let parent := if joined.isEmpty then "/" else String.mk joined
    let target := String.mk (segs.getLastD [])
    match lf parent with
    | .error _ => none
    | .ok files =>
      if files.any (fun f => lastSeg f.path = target) then
        some { filePath := p2, fid := p2 }
      else none

/-- `BaiduAdapter.get_fids`: the Python result-list loop, appending one
entry per resolved path. -/
def baiduGetFids (lf : ListFn) (clientOk : Bool) (paths : List String) : List FidEntry :=
  if !clientOk then []
  else paths.foldl (appendResolved (baiduResolveOne lf)) []

/-- `XunleiAdapter.NOT_IMPLEMENTED_CODE`. -/
def xunleiNICode : Int := -999

/-- `XunleiAdapter.NOT_IMPLEMENTED_MSG`. -/
def xunleiNIMsg : String := "迅雷网盘API暂未实现，敬请期待"

/-- `XunleiAdapter.get_stoken` (stub). -/
def xunleiGetStoken (_pwdId _passcode : String) : StatusRes :=
  { status := xunleiNICode, code := xunleiNICode, msg := xunleiNIMsg }

/-- `XunleiAdapter.get_detail` (stub). -/
def xunleiGetDetail (_pwdId _stoken _pdirFid : String) : LsEnvelope :=
  { code := xunleiNICode, msg := xunleiNIMsg, entries := [] }

/-- `XunleiAdapter.ls_dir` (stub). -/
def xunleiLsDir (_pdirFid : String) : LsEnvelope :=
  { code := xunleiNICode, msg := xunleiNIMsg, entries := [] }

/-- `XunleiAdapter.save_file` (stub). -/
def xunleiSaveFile (_fidList _fidTokenList : List String) (_toPdirFid _pwdId _stoken : String) :
    SimpleRes :=
  { code := xunleiNICode, msg := xunleiNIMsg }

/-- `XunleiAdapter.query_task` (stub). -/
def xunleiQueryTask (_taskId : String) : StatusRes :=
  { status := xunleiNICode, code := xunleiNICode, msg := xunleiNIMsg }

/-- `XunleiAdapter.mkdir` (stub). -/
def xunleiMkdir (_dirPath : String) : SimpleRes :=
  { code := xunleiNICode, msg := xunleiNIMsg }

/-- `XunleiAdapter.rename` (stub). -/
def xunleiRename (_fid _fname : String) : SimpleRes :=
  { code := xunleiNICode, msg := xunleiNIMsg }

/-- `XunleiAdapter.delete` (stub). -/
def xunleiDelete (_filelist : List String) : SimpleRes :=
  { code := xunleiNICode, msg := xunleiNIMsg }

/-- `XunleiAdapter.get_fids` (stub): returns the empty list, not an
envelope. -/
def xunleiGetFids (_paths : List String) : List FidEntry := []

/-- `XunleiAdapter.init`: returns `False` on both branches (with cookies it
marks the account inactive, without cookies likewise). -/
def xunleiInit (_hasCookies : Bool) : Bool := false

/-- `XunleiAdapter.get_account_info`: returns `False`. -/
def xunleiGetAccountInfo : Bool := false

/-- A root-to-target descent in the shared tree, stored target-first: the
last element is a root-level entry, and each element is listed (successfully)
inside the directory of the next one. -/
inductive ShareDescent (lsh : ListFn) (roots : List PcsItem) : List PcsItem → Prop
  | root (it : PcsItem) (hm : it ∈ roots) : ShareDescent lsh roots [it]
  | step (it p : PcsItem) (c : List PcsItem) (items : List PcsItem)
      (hp : ShareDescent lsh roots (p :: c)) (hd : p.isDir = true)
      (hl : lsh p.path = .ok items) (hm : it ∈ items) :
      ShareDescent lsh roots (it :: p :: c)

/-- Invariant of the `_bfs_share_tree` BFS queue: every queued entry is a
directory reached by a descent from a root-level entry, carrying exactly the
breadcrumb of its own chain (chains are stored target-first, hence the
reverse). -/
def QueueInv (lsh : ListFn) (roots : List PcsItem) (q : List (String × List Crumb)) : Prop :=
  ∀ e ∈ q, ∃ it c, ShareDescent lsh roots (it :: c) ∧ it.isDir = true ∧
    e.1 = it.path ∧ e.2 = ((it :: c).reverse).map crumbOf

/-- The I/O trace of the claim C1 scenario: pre-transfer snapshot
`{A: "x.mp4"}`, a successful synchronous transfer, post-transfer listing
`{A: "x.mp4", B: "y.mp4", C: "z (1).mp4"}`. -/
def c1SaveCtx : BaiduSaveCtx :=
  { clientOk := true
    beforeDir := { code := 0, entries := [{ fid := "A", fname := "x.mp4" }] }
    shareKnown := false
    stokenCode := 0
    stokenMsg := ""
    sharedPathsR := .ok [{ path := "/share", fsId := 1, isDir := true }]
    transferR := .ok false
    afterDir := { code := 0, entries :=
      [{ fid := "A", fname := "x.mp4" }, { fid := "B", fname := "y.mp4" },
       { fid := "C", fname := "z (1).mp4" }] } }

/-! Helper lemmas. -/

theorem foldlAppendOpt_eq_filterMap {β : Type} (f : String → Option β)
    (ps : List String) (acc : List β) :
    ps.foldl (appendResolved f) acc = acc ++ ps.filterMap f := by
  induction ps generalizing acc with
  | nil => simp
  | cons p rest ih =>
    simp only [List.foldl_cons, List.filterMap_cons]
    cases h : f p with
    | none => simp [appendResolved, h, ih]
    | some e => simp [appendResolved, h, ih]

theorem startsSlash_false_of_digits {s : String} (h : isDigitsOnly s = true) :
    startsSlash s = false := by
  unfold isDigitsOnly at h
  unfold startsSlash
  cases hd : s.data with
  | nil => simp
  | cons c t =>
    rw [hd] at h
    simp only [Bool.and_eq_true, List.all_cons] at h
    have hc : c.isDigit = true := h.2.1
    by_cases hcs : c = '/'
    · subst hcs
      simp at hc
    · split
      · rename_i heq
        exact absurd (List.cons.injEq .. ▸ heq).1 hcs
      · rfl

/-- C4: for every input fid to the Baidu path resolvers
(`_resolve_fid_to_path` and `_resolve_share_fid_to_path`), a fid beginning
with the path separator `"/"` is returned unchanged without any search (the
result does not depend on the listing functions), an empty fid or `"0"`
resolves to the root `"/"`, and a fid that is neither numeric nor
path-shaped resolves to the root `"/"` (with a logged warning in the
source); both resolvers are total functions, hence never raise. -/
theorem C4_resolver_edge_cases (lf : ListFn) (sp : Except String (List PcsItem))
    (lsh : ListFn) (ck : Bool) (fid : String) :
    (startsSlash fid = true →
      resolveFidToPath lf ck fid = fid ∧ resolveShareFidToPath sp lsh ck fid = fid)
    ∧ ((fid = "" ∨ fid = "0") →
      resolveFidToPath lf ck fid = "/" ∧ resolveShareFidToPath sp lsh ck fid = "/")
    ∧ (isDigitsOnly fid = false → startsSlash fid = false →
      resolveFidToPath lf ck fid = "/" ∧ resolveShareFidToPath sp lsh ck fid = "/") := by
  refine ⟨fun h => ?_, fun h => ?_, fun h h' => ?_⟩
  · have h1 : fid ≠ "" := by
      intro he; subst he; simp [startsSlash] at h
    have h2 : fid ≠ "0" := by
      intro he; subst he; simp [startsSlash] at h
    by_cases h3 : fid = "/"
    · subst h3
      constructor
      · simp [resolveFidToPath, h]
      · simp [resolveShareFidToPath]
    · constructor
      · simp [resolveFidToPath, h, h1, h2]
      · simp [resolveShareFidToPath, h, h1, h2, h3]
  · rcases h with h | h <;> subst h
    · exact ⟨by simp [resolveFidToPath], by simp [resolveShareFidToPath]⟩
    · exact ⟨by simp [resolveFidToPath], by simp [resolveShareFidToPath]⟩
  · have h2 : fid ≠ "0" := by
      intro he; subst he; exact absurd h (by decide)
    have h3 : fid ≠ "/" := by
      intro he; subst he; exact absurd h' (by decide)
    by_cases h1 : fid = ""
    · subst h1
      exact ⟨by simp [resolveFidToPath], by simp [resolveShareFidToPath]⟩
    · exact ⟨by simp [resolveFidToPath, h, h', h1, h2],
             by simp [resolveShareFidToPath, h, h', h1, h2, h3]⟩

/-- Witness for C4 at concrete inputs: a path-shaped fid `"/a/b"` is
returned unchanged by both resolvers, `"0"` resolves to the root, and the
malformed fid `"abc!"` resolves to the root. -/
theorem C4_witness :
    resolveFidToPath (fun _ => .ok []) true "/a/b" = "/a/b" ∧
    resolveShareFidToPath (.ok []) (fun _ => .ok []) true "/a/b" = "/a/b" ∧
    resolveFidToPath (fun _ => .ok []) true "0" = "/" ∧
    resolveShareFidToPath (.ok []) (fun _ => .ok []) true "0" = "/" ∧
    resolveFidToPath (fun _ => .ok []) true "abc!" = "/" ∧
    resolveShareFidToPath (.ok []) (fun _ => .ok []) true "abc!" = "/" :=
  ⟨((C4_resolver_edge_cases (fun _ => .ok []) (.ok []) (fun _ => .ok []) true "/a/b").1
      (by decide)).1,
   ((C4_resolver_edge_cases (fun _ => .ok []) (.ok []) (fun _ => .ok []) true "/a/b").1
      (by decide)).2,
   ((C4_resolver_edge_cases (fun _ => .ok []) (.ok []) (fun _ => .ok []) true "0").2.1
      (Or.inr rfl)).1,
   ((C4_resolver_edge_cases (fun _ => .ok []) (.ok []) (fun _ => .ok []) true "0").2.1
      (Or.inr rfl)).2,
   ((C4_resolver_edge_cases (fun _ => .ok []) (.ok []) (fun _ => .ok []) true "abc!").2.2
      (by decide) (by decide)).1,
   ((C4_resolver_edge_cases (fun _ => .ok []) (.ok []) (fun _ => .ok []) true "abc!").2.2
      (by decide) (by decide)).2⟩

/-- C1 counterexample: in the claimed scenario, `save_file` returns
`["B", ""]`, not `["B", "C"]` — the normalized-name fallback strips only
characters outside word/whitespace/dot, so `"z (1).mp4"` normalizes to
`"z 1.mp4"`, which differs from `"z.mp4"`, and the second slot stays the
empty marker. -/
theorem C1_counterexample :
    (baiduSaveFile c1SaveCtx "1abc" "1abc:pw" ["y.mp4", "z.mp4"]).saveAsTopFids
      = some ["B", ""] ∧
    (some ["B", ""] : Option (List String)) ≠ some ["B", "C"] := by
  exact ⟨by decide, by decide⟩

/-- C1 amended: in the scenario of the claim, `"y.mp4"` is matched exactly
to B, but `"z.mp4"` is not matched by the normalized-name fallback
(`cleanName "z (1).mp4" = "z 1.mp4" ≠ "z.mp4"`), so its slot is the
explicit empty marker and the returned `save_as_top_fids` is `["B", ""]`. -/
theorem C1_amended :
    baiduSaveFile c1SaveCtx "1abc" "1abc:pw" ["y.mp4", "z.mp4"]
      = { code := 0, msg := "success", saveAsTopFids := some ["B", ""],
          taskId := some "baidu_sync_1abc", syncFlag := true } ∧
    reconcileOne (saveNameMap c1SaveCtx) "y.mp4" = "B" ∧
    cleanName "z (1).mp4" = "z 1.mp4" ∧
    cleanName "z.mp4" = "z.mp4" ∧
    reconcileOne (saveNameMap c1SaveCtx) "z.mp4" = "" := by
  exact ⟨by decide, by decide, by decide, by decide, by decide⟩

/-- C6 counterexample: not every listed capability of the Xunlei stub
returns the code −999 envelope — `get_fids` returns the plain empty list
and `init`/`get_account_info` return `False`, none of which carries the
NOT_IMPLEMENTED code. -/
theorem C6_counterexample :
    xunleiGetFids ["x"] = [] ∧ xunleiInit true = false ∧
    xunleiGetAccountInfo = false := by
  exact ⟨rfl, rfl, rfl⟩

/-- C6 amended: every envelope-returning data operation of the Xunlei stub
(get_stoken, get_detail, ls_dir, save_file, query_task, mkdir, rename,
delete) returns the distinguished NOT_IMPLEMENTED result (code −999)
without performing work, while `get_fids` returns the empty list and
`init`/`get_account_info` return the failure marker `False`; `extract_url`
still performs real URL parsing, extracting share id, passcode and starting
directory. -/
theorem C6_amended (pwdId passcode stoken pdirFid taskId dirPath fid fname : String)
    (fidList fidTokenList filelist paths : List String) (hasCookies : Bool) :
    (xunleiGetStoken pwdId passcode).code = -999 ∧
    (xunleiGetStoken pwdId passcode).status = -999 ∧
    (xunleiGetDetail pwdId stoken pdirFid).code = -999 ∧
    (xunleiLsDir pdirFid).code = -999 ∧
    (xunleiSaveFile fidList fidTokenList pdirFid pwdId stoken).code = -999 ∧
    (xunleiQueryTask taskId).code = -999 ∧
    (xunleiQueryTask taskId).status = -999 ∧
    (xunleiMkdir dirPath).code = -999 ∧
    (xunleiRename fid fname).code = -999 ∧
    (xunleiDelete filelist).code = -999 ∧
    xunleiGetFids paths = [] ∧
    xunleiInit hasCookies = false ∧
    xunleiGetAccountInfo = false ∧
    xunleiExtractUrl "https://pan.xunlei.com/s/AbC123?pwd=wxyz"
      = (some "AbC123", "wxyz", "0", []) ∧
    xunleiExtractUrl "https://pan.xunlei.com/s/AbC-12#/list/DEF_9"
      = (some "AbC-12", "", "DEF_9", []) ∧
    xunleiExtractUrl "nope" = (none, "", "0", []) := by
  refine ⟨rfl, rfl, rfl, rfl, rfl, rfl, rfl, rfl, rfl, rfl, rfl, rfl, rfl, ?_, ?_, ?_⟩
  · decide
  · decide
  · decide

/-- C2: every adapter's `extract_url` is a total function of the input
string (each model is a Lean function, so it returns without raising on
every input), and when the URL matches none of the provider's grammar
patterns the result is the explicit unrecognized tuple: share id `none`,
empty passcode, the provider's root directory marker (`"root"` for Aliyun,
`"/"` for Baidu, `"0"` for Xunlei), and an empty breadcrumb list. -/
theorem C2_extract_url_total (url : String) :
    (searchCap [("aliyundrive.com/s/").data, ("alipan.com/s/").data] isAlnumChar
        url.data = none →
     searchCap [("pwd=").data, ("password=").data, ("code=").data] isAlnumChar
        url.data = none →
     searchCap [("/folder/").data] isAlnumChar url.data = none →
     aliyunExtractUrl url = (none, "", "root", []))
    ∧
    (searchCap [("/s/").data] isAlnumDashChar url.data = none →
     searchCap [("surl=").data] isAlnumDashChar url.data = none →
     searchCap [("pwd=").data, ("password=").data] isAlnumChar url.data = none →
     searchHash4 url.data = none →
     occursIn ("#/list/share/").data url.data = false →
     baiduExtractUrl url = (none, "", "/", []))
    ∧
    (searchCap [("pan.xunlei.com/s/").data] isAlnumDashChar url.data = none →
     searchCap [("pwd=").data, ("password=").data] isAlnumChar url.data = none →
     searchCap [("#/list/").data] isAlnumDashChar url.data = none →
     xunleiExtractUrl url = (none, "", "0", [])) := by
  refine ⟨fun h1 h2 h3 => ?_, fun h1 h2 h3 h4 h5 => ?_, fun h1 h2 h3 => ?_⟩
  · simp [aliyunExtractUrl, h1, h2, h3]
  · simp [baiduExtractUrl, h1, h2, h3, h4, h5]
  · simp [xunleiExtractUrl, h1, h2, h3]

/-- Witness for C2 at the concrete unrecognized input `"hello"`: every
pattern fails and each adapter returns its unrecognized tuple. -/
theorem C2_witness :
    aliyunExtractUrl "hello" = (none, "", "root", []) ∧
    baiduExtractUrl "hello" = (none, "", "/", []) ∧
    xunleiExtractUrl "hello" = (none, "", "0", []) :=
  ⟨(C2_extract_url_total "hello").1 (by decide) (by decide) (by decide),
   (C2_extract_url_total "hello").2.1 (by decide) (by decide) (by decide) (by decide)
     (by decide),
   (C2_extract_url_total "hello").2.2 (by decide) (by decide) (by decide)⟩

theorem baiduSaveFile_fids_some (ctx : BaiduSaveCtx) (pwdId stoken : String)
    (fileNames : List String) (l : List String)
    (hl : (baiduSaveFile ctx pwdId stoken fileNames).saveAsTopFids = some l) :
    l = (if fileNames ≠ [] then fileNames.map (reconcileOne (saveNameMap ctx))
         else (saveNameMap ctx).map (fun kv => kv.2)) := by
  unfold baiduSaveFile at hl
  repeat' split at hl
  all_goals try (unfold baiduSaveErr at hl; split at hl)
  all_goals simp at hl ⊢
  all_goals split
  all_goals first
    | exact hl.symm
    | simp_all

/-- C5: when `BaiduAdapter.save_file` is called with a non-empty
`file_names` list and returns a `save_as_top_fids` payload, that list is
exactly the requested names mapped through the per-name reconciliation
(exact match, then normalized fallback, then the explicit empty marker):
one slot per requested name, in request order, never silently dropped. -/
theorem C5_save_file_alignment (ctx : BaiduSaveCtx) (pwdId stoken : String)
    (fileNames : List String) (hne : fileNames ≠ []) (l : List String)
    (hl : (baiduSaveFile ctx pwdId stoken fileNames).saveAsTopFids = some l) :
    l = fileNames.map (reconcileOne (saveNameMap ctx)) ∧
    l.length = fileNames.length ∧
    ∀ i, i < fileNames.length →
      l.getD i "" = reconcileOne (saveNameMap ctx) (fileNames.getD i "") := by
  have h := baiduSaveFile_fids_some ctx pwdId stoken fileNames l hl
  rw [if_pos hne] at h
  subst h
  refine ⟨rfl, by simp, fun i hi => ?_⟩
  rw [List.getD_eq_getElem?_getD, List.getD_eq_getElem?_getD, List.getElem?_map,
    List.getElem?_eq_getElem hi]
  simp

/-- Witness for C5 at a concrete trace: two requested names, one matched
(`"a.txt"` to the new entry N1) and one unmatched (`"b.txt"`, empty slot). -/
theorem C5_witness :
    (["N1", ""] : List String) =
      ["a.txt", "b.txt"].map (reconcileOne (saveNameMap
        { clientOk := true
          beforeDir := { code := 0, entries := [] }
          shareKnown := false
          stokenCode := 0
          stokenMsg := ""
          sharedPathsR := .ok [{ path := "/s", fsId := 2, isDir := true }]
          transferR := .ok false
          afterDir := { code := 0, entries := [{ fid := "N1", fname := "a.txt" }] } })) ∧
    (["N1", ""] : List String).length = (["a.txt", "b.txt"] : List String).length ∧
    ∀ i, i < (["a.txt", "b.txt"] : List String).length →
      (["N1", ""] : List String).getD i "" =
        reconcileOne (saveNameMap
        { clientOk := true
          beforeDir := { code := 0, entries := [] }
          shareKnown := false
          stokenCode := 0
          stokenMsg := ""
          sharedPathsR := .ok [{ path := "/s", fsId := 2, isDir := true }]
          transferR := .ok false
          afterDir := { code := 0, entries := [{ fid := "N1", fname := "a.txt" }] } })
        ((["a.txt", "b.txt"] : List String).getD i "") :=
  C5_save_file_alignment _ "p" "p:x" ["a.txt", "b.txt"] (by decide) ["N1", ""] (by decide)

/-- C10: for both `AliyunAdapter.get_fids` and `BaiduAdapter.get_fids`, the
result is exactly the input paths filtered-and-mapped through per-path
resolution: one `{file_path, fid}` entry per successfully resolved input
path, in input order, and every unresolvable path is silently omitted — so
the result can be shorter than the input and indices do not generally align
with the input's indices. -/
theorem C10_get_fids_filterMap (lsf : AliLsFn) (lf : ListFn) (paths : List String) :
    aliGetFids lsf true paths = paths.filterMap (aliResolveOne lsf) ∧
    (aliGetFids lsf true paths).length ≤ paths.length ∧
    baiduGetFids lf true paths = paths.filterMap (baiduResolveOne lf) ∧
    (baiduGetFids lf true paths).length ≤ paths.length := by
  have ha : aliGetFids lsf true paths = paths.filterMap (aliResolveOne lsf) := by
    unfold aliGetFids
    rw [if_neg (by decide)]
    exact (foldlAppendOpt_eq_filterMap _ paths []).trans (List.nil_append _)
  have hb : baiduGetFids lf true paths = paths.filterMap (baiduResolveOne lf) := by
    unfold baiduGetFids
    rw [if_neg (by decide)]
    exact (foldlAppendOpt_eq_filterMap _ paths []).trans (List.nil_append _)
  exact ⟨ha, ha ▸ List.length_filterMap_le _ _, hb, hb ▸ List.length_filterMap_le _ _⟩

theorem aliFindFile_mono {st st' : AliState} {p n : String} {e : AliEntry}
    (hE : ∃ d, st'.entries = st.entries ++ d)
    (h : aliFindFile st p n = some e) : aliFindFile st' p n = some e := by
  obtain ⟨d, hd⟩ := hE
  unfold aliFindFile aliListDir at h ⊢
  rw [hd, List.filter_append, List.find?_append, h]
  rfl

theorem aliFindFile_none_cons {st st' : AliState} {p n : String} {e : AliEntry}
    {d : List AliEntry} (hd : st'.entries = st.entries ++ e :: d)
    (hp : e.parentId = p) (hn : e.ename = n)
    (h : aliFindFile st p n = none) : aliFindFile st' p n = some e := by
  unfold aliFindFile aliListDir at h ⊢
  rw [hd, List.filter_append, List.find?_append, h]
  simp [List.filter_cons, hp, hn]

theorem aliMkdirLoop_entries (parts : List String) :
    ∀ (st : AliState) (parent created : String),
      ∃ d, (aliMkdirLoop st parts parent created).2.2.entries = st.entries ++ d := by
  induction parts with
  | nil => intro st parent created; exact ⟨[], by simp [aliMkdirLoop]⟩
  | cons part rest ih =>
    intro st parent created
    by_cases hp : part = ""
    · simpa [aliMkdirLoop, hp] using ih st parent created
    · cases hf : aliFindFile st parent part with
      | some e =>
        obtain ⟨d, hd⟩ := ih st e.fid e.fid
        exact ⟨d, by simpa [aliMkdirLoop, hp, hf] using hd⟩
      | none =>
        obtain ⟨d, hd⟩ := ih ⟨st.entries ++ [⟨parent, part, "ali_" ++ Nat.repr st.ctr⟩],
          st.ctr + 1⟩ ("ali_" ++ Nat.repr st.ctr) ("ali_" ++ Nat.repr st.ctr)
        refine ⟨⟨parent, part, "ali_" ++ Nat.repr st.ctr⟩ :: d, ?_⟩
        simp only [aliMkdirLoop, if_neg hp, hf, aliCreateFolder]
        rw [hd]
        simp

theorem aliMkdirLoop_replay (parts : List String) :
    ∀ (st : AliState) (parent created : String),
      aliMkdirLoop (aliMkdirLoop st parts parent created).2.2 parts parent created
        = aliMkdirLoop st parts parent created := by
  induction parts with
  | nil => intro st parent created; rfl
  | cons part rest ih =>
    intro st parent created
    by_cases hp : part = ""
    · simp only [aliMkdirLoop, if_pos hp]
      exact ih st parent created
    · cases hf : aliFindFile st parent part with
      | some e =>
        have hE := aliMkdirLoop_entries rest st e.fid e.fid
        have hf' : aliFindFile (aliMkdirLoop st rest e.fid e.fid).2.2 parent part
            = some e := aliFindFile_mono hE hf
        simp only [aliMkdirLoop, if_neg hp, hf, hf']
        exact ih st e.fid e.fid
      | none =>
        have hE := aliMkdirLoop_entries rest
          (⟨st.entries ++ [⟨parent, part, "ali_" ++ Nat.repr st.ctr⟩], st.ctr + 1⟩ : AliState)
          ("ali_" ++ Nat.repr st.ctr) ("ali_" ++ Nat.repr st.ctr)
        obtain ⟨d, hd⟩ := hE
        have hf' : aliFindFile
            (aliMkdirLoop
              (⟨st.entries ++ [⟨parent, part, "ali_" ++ Nat.repr st.ctr⟩], st.ctr + 1⟩ : AliState)
              rest ("ali_" ++ Nat.repr st.ctr) ("ali_" ++ Nat.repr st.ctr)).2.2 parent part
            = some ⟨parent, part, "ali_" ++ Nat.repr st.ctr⟩ := by
          refine aliFindFile_none_cons (d := d) ?_ rfl rfl hf
          rw [hd]
          simp
        simp only [aliMkdirLoop, if_neg hp, hf, aliCreateFolder, hf']
        exact ih _ _ _

/-- C7: `mkdir` is idempotent for both adapters against the idealized
backend states.  Aliyun: every path segment already present is reused via
`_find_file_in_dir` rather than recreated, and calling `mkdir` twice with
the same path returns code 0 with the same final fid and display name both
times while the second call leaves the backend state unchanged (no
duplicate directory).  Baidu: `makedir` on an existing path raises the
already-exists error (errno 31061, per the adapter's own `ERROR_CODES`
table), which `mkdir` converts to code 0 with the path as fid, so both
calls return code 0 with the same fid and name and the second call does not
change the backend state. -/
theorem C7_mkdir_idempotent (stA : AliState) (stB : List String) (p q : String) :
    ((aliMkdirSt stA p).1.code = 0 ∧
     (aliMkdirSt (aliMkdirSt stA p).2 p).1.code = 0 ∧
     (aliMkdirSt (aliMkdirSt stA p).2 p).1.fid = (aliMkdirSt stA p).1.fid ∧
     (aliMkdirSt (aliMkdirSt stA p).2 p).1.fname = (aliMkdirSt stA p).1.fname ∧
     (aliMkdirSt (aliMkdirSt stA p).2 p).2 = (aliMkdirSt stA p).2) ∧
    ((baiduMkdirSt stB q).1.code = 0 ∧
     (baiduMkdirSt (baiduMkdirSt stB q).2 q).1.code = 0 ∧
     (baiduMkdirSt (baiduMkdirSt stB q).2 q).1.fid = (baiduMkdirSt stB q).1.fid ∧
     (baiduMkdirSt (baiduMkdirSt stB q).2 q).1.fname = (baiduMkdirSt stB q).1.fname ∧
     (baiduMkdirSt (baiduMkdirSt stB q).2 q).2 = (baiduMkdirSt stB q).2) := by
  constructor
  · have hrep := aliMkdirLoop_replay
      ((splitOnChar '/' (stripSlash p).data).map String.mk) stA "root" ""
    unfold aliMkdirSt
    simp [hrep]
  · have h31061 : occursIn ("31061").data
        ("error_code: 31061, message: file(s) already exist").data = true := by decide
    by_cases hmem : (if startsSlash q then q else "/" ++ q) ∈ stB
    · unfold baiduMkdirSt baiduMakedir baiduMkdirCore
      simp only [if_pos hmem, h31061]
      simp [hmem, h31061]
    · unfold baiduMkdirSt baiduMakedir baiduMkdirCore
      have hmem2 : (if startsSlash q then q else "/" ++ q)
          ∈ stB ++ [if startsSlash q then q else "/" ++ q] := by simp
      simp only [if_neg hmem, if_pos hmem2, h31061]
      simp [hmem, hmem2, h31061]

theorem scanDirItems_fst_none {fid : String} {items : List PcsItem}
    (H : ∀ it ∈ items, Nat.repr it.fsId ≠ fid) :
    ∀ acc, (scanDirItems fid items acc).1 = none := by
  induction items with
  | nil => intro acc; rfl
  | cons it rest ih =>
    intro acc
    unfold scanDirItems
    rw [if_neg (H it (by simp))]
    exact ih (fun x hx => H x (by simp [hx])) _

theorem scanFrontier_fst_none {lf : ListFn} {fid : String}
    (H : ∀ d items, lf d = .ok items → ∀ it ∈ items, Nat.repr it.fsId ≠ fid) :
    ∀ dirs acc, (scanFrontier lf fid dirs acc).1 = none := by
  intro dirs
  induction dirs with
  | nil => intro acc; rfl
  | cons d rest ih =>
    intro acc
    unfold scanFrontier
    cases hld : lf d with
    | error e => exact ih acc
    | ok items =>
      have h1 := scanDirItems_fst_none (H d items hld) acc
      cases hsc : scanDirItems fid items acc with
      | mk r acc' =>
        rw [hsc] at h1
        simp only at h1
        subst h1
        dsimp only
        rw [hsc]
        exact ih acc'

theorem bfsOwn_notfound {lf : ListFn} {fid : String}
    (H : ∀ d items, lf d = .ok items → ∀ it ∈ items, Nat.repr it.fsId ≠ fid) :
    ∀ (n : Nat) (dirs : List String), bfsOwn lf fid dirs n = "/" := by
  intro n
  induction n with
  | zero => intro dirs; rfl
  | succ n ih =>
    intro dirs
    unfold bfsOwn
    cases hsc : scanFrontier lf fid dirs [] with
    | mk r nd =>
      have h1 := scanFrontier_fst_none H dirs []
      rw [hsc] at h1
      simp only at h1
      subst h1
      by_cases hnd : nd = []
      · simp [hnd]
      · simp [hnd, ih nd]

theorem bfsOwnTrace_length (lf : ListFn) (fid : String) :
    ∀ (n : Nat) (dirs : List String), (bfsOwnTrace lf fid dirs n).2.length ≤ n := by
  intro n
  induction n with
  | zero => intro dirs; simp [bfsOwnTrace]
  | succ n ih =>
    intro dirs
    unfold bfsOwnTrace
    cases hsc : scanFrontier lf fid dirs [] with
    | mk r nd =>
      cases r with
      | some p => simp
      | none =>
        by_cases hnd : nd = []
        · simp [hnd]
        · simpa [hnd] using Nat.succ_le_succ (ih nd)

theorem bfsOwnTrace_fst (lf : ListFn) (fid : String) :
    ∀ (n : Nat) (dirs : List String),
      (bfsOwnTrace lf fid dirs n).1 = bfsOwn lf fid dirs n := by
  intro n
  induction n with
  | zero => intro dirs; rfl
  | succ n ih =>
    intro dirs
    unfold bfsOwnTrace bfsOwn
    cases hsc : scanFrontier lf fid dirs [] with
    | mk r nd =>
      cases r with
      | some p => rfl
      | none =>
        by_cases hnd : nd = []
        · simp [hnd]
        · simp [hnd, ih nd]

theorem scanShareItems_fst_none {fid : String} {items : List PcsItem}
    (H : ∀ it ∈ items, Nat.repr it.fsId ≠ fid) (bc : List Crumb) :
    ∀ acc, (scanShareItems fid bc items acc).1 = none := by
  induction items with
  | nil => intro acc; rfl
  | cons it rest ih =>
    intro acc
    unfold scanShareItems
    rw [if_neg (H it (by simp))]
    exact ih (fun x hx => H x (by simp [hx])) _

theorem scanShareQueue_fst_none {lsh : ListFn} {fid : String}
    (H : ∀ d items, lsh d = .ok items → ∀ it ∈ items, Nat.repr it.fsId ≠ fid) :
    ∀ (queue acc : List (String × List Crumb)),
      (scanShareQueue lsh fid queue acc).1 = none := by
  intro queue
  induction queue with
  | nil => intro acc; rfl
  | cons e rest ih =>
    intro acc
    obtain ⟨p, bc⟩ := e
    unfold scanShareQueue
    cases hld : lsh p with
    | error msg => exact ih acc
    | ok items =>
      have h1 := scanShareItems_fst_none (H p items hld) bc acc
      cases hsc : scanShareItems fid bc items acc with
      | mk r acc' =>
        rw [hsc] at h1
        simp only at h1
        subst h1
        dsimp only
        rw [hsc]
        exact ih acc'

theorem bfsShareLoop_notfound {lsh : ListFn} {fid : String}
    (H : ∀ d items, lsh d = .ok items → ∀ it ∈ items, Nat.repr it.fsId ≠ fid) :
    ∀ (n : Nat) (queue : List (String × List Crumb)),
      bfsShareLoop lsh fid queue n = ("", []) := by
  intro n
  induction n with
  | zero => intro queue; rfl
  | succ n ih =>
    intro queue
    unfold bfsShareLoop
    cases hsc : scanShareQueue lsh fid queue [] with
    | mk r nq =>
      have h1 := scanShareQueue_fst_none H queue []
      rw [hsc] at h1
      simp only at h1
      subst h1
      by_cases hnq : nq = []
      · simp [hnq]
      · simp [hnq, ih nq]

theorem bfsShareTrace_length (lsh : ListFn) (fid : String) :
    ∀ (n : Nat) (queue : List (String × List Crumb)),
      (bfsShareTrace lsh fid queue n).2.length ≤ n := by
  intro n
  induction n with
  | zero => intro queue; simp [bfsShareTrace]
  | succ n ih =>
    intro queue
    unfold bfsShareTrace
    cases hsc : scanShareQueue lsh fid queue [] with
    | mk r nq =>
      cases r with
      | some res => simp
      | none =>
        by_cases hnq : nq = []
        · simp [hnq]
        · simpa [hnq] using Nat.succ_le_succ (ih nq)

theorem bfsShareTrace_fst (lsh : ListFn) (fid : String) :
    ∀ (n : Nat) (queue : List (String × List Crumb)),
      (bfsShareTrace lsh fid queue n).1 = bfsShareLoop lsh fid queue n := by
  intro n
  induction n with
  | zero => intro queue; rfl
  | succ n ih =>
    intro queue
    unfold bfsShareTrace bfsShareLoop
    cases hsc : scanShareQueue lsh fid queue [] with
    | mk r nq =>
      cases r with
      | some res => rfl
      | none =>
        by_cases hnq : nq = []
        · simp [hnq]
        · simp [hnq, ih nq]

/-- C3: for every target id and every directory tree (modelled by arbitrary
listing functions, including trees deeper than the bound), the BFS path
resolvers visit at most the fixed number of levels — 10 for the own-drive
resolver (the bound `resolveFidToPath` passes to its BFS loop) and 5 for
the share-tree resolver — and when the target is nowhere in the tree the
loops terminate with the fall-back outcome: `"/"` for the own-drive
resolver and `("", [])` for the share resolver. -/
theorem C3_bfs_depth_bounded (lf lsh : ListFn) (roots : List PcsItem) (fid : String) :
    ((bfsOwnTrace lf fid ["/"] 10).2.length ≤ 10) ∧
    ((bfsOwnTrace lf fid ["/"] 10).1 = bfsOwn lf fid ["/"] 10) ∧
    (isDigitsOnly fid = true → fid ≠ "0" →
      resolveFidToPath lf true fid = bfsOwn lf fid ["/"] 10) ∧
    ((∀ d items, lf d = .ok items → ∀ it ∈ items, Nat.repr it.fsId ≠ fid) →
      ∀ (dirs : List String) (n : Nat), bfsOwn lf fid dirs n = "/") ∧
    ((bfsShareTrace lsh fid (shareRootQueue roots) 5).2.length ≤ 5) ∧
    ((bfsShareTrace lsh fid (shareRootQueue roots) 5).1
      = bfsShareLoop lsh fid (shareRootQueue roots) 5) ∧
    ((∀ it ∈ roots, Nat.repr it.fsId ≠ fid) →
     (∀ d items, lsh d = .ok items → ∀ it ∈ items, Nat.repr it.fsId ≠ fid) →
      ∀ n, bfsShareTree lsh roots fid n = ("", [])) := by
  refine ⟨bfsOwnTrace_length lf fid 10 ["/"], bfsOwnTrace_fst lf fid 10 ["/"],
    fun hdig h0 => ?_, fun H dirs n => bfsOwn_notfound H n dirs,
    bfsShareTrace_length lsh fid 5 (shareRootQueue roots),
    bfsShareTrace_fst lsh fid 5 (shareRootQueue roots),
    fun Hr H n => ?_⟩
  · have h1 : fid ≠ "" := by
      intro he; subst he; exact absurd hdig (by decide)
    have h2 := startsSlash_false_of_digits hdig
    simp [resolveFidToPath, h1, h0, h2, hdig]
  · unfold bfsShareTree
    have hfind : roots.find? (fun it => Nat.repr it.fsId = fid) = none := by
      rw [List.find?_eq_none]
      intro it hit
      simpa using Hr it hit
    rw [hfind]
    exact bfsShareLoop_notfound H n (shareRootQueue roots)

/-- Witness for C3 at a concrete empty tree and numeric target `"5"`: the
own-drive resolver enters its bounded BFS and both searches fall back
(`"/"`, respectively `("", [])`). -/
theorem C3_witness :
    resolveFidToPath (fun _ => .ok []) true "5" = bfsOwn (fun _ => .ok []) "5" ["/"] 10 ∧
    bfsOwn (fun _ => .ok []) "5" ["/"] 10 = "/" ∧
    bfsShareTree (fun _ => .ok []) [] "5" 5 = ("", []) := by
  have hnf : ∀ (d : String) (items : List PcsItem),
      (Except.ok [] : Except String (List PcsItem)) = Except.ok items →
      ∀ it ∈ items, Nat.repr it.fsId ≠ "5" := by
    intro d items h it hit
    simp only [Except.ok.injEq] at h
    subst h
    cases hit
  exact ⟨(C3_bfs_depth_bounded (fun _ => .ok []) (fun _ => .ok []) [] "5").2.2.1
      (by decide) (by decide),
    (C3_bfs_depth_bounded (fun _ => .ok []) (fun _ => .ok []) [] "5").2.2.2.1
      hnf ["/"] 10,
    (C3_bfs_depth_bounded (fun _ => .ok []) (fun _ => .ok []) [] "5").2.2.2.2.2.2
      (by intro it hit; cases hit) hnf 5⟩

/-- C8 counterexample: not every backend exception converts to a *nonzero*
code — `BaiduAdapter.mkdir` deliberately converts an already-exists
exception (message containing `"31061"`) into a code-0 success envelope,
and a `get_stoken` exception whose message encodes `errno: 0` is returned
with the parsed code 0. -/
theorem C8_counterexample :
    (baiduMkdirCore true (.error "error [31061] file(s) already exist") "/a").code = 0 ∧
    (baiduGetStoken true (.error "failed, errno: 0")).code = 0 := by
  exact ⟨by decide, by decide⟩

/-- C8 amended: for every modelled adapter operation, a backend exception
is caught inside the operation and converted into the result envelope — no
exception escapes (each model is total) — and the envelope's code is
nonzero except where the adapter deliberately maps the failure to success
(an already-exists exception in Baidu `mkdir`, a `FileAlreadyExists`
exception in Aliyun `save_file`) or where the errno parsed from the
exception message is itself 0 (Baidu `get_stoken`/`save_file`). -/
theorem C8_amended (lf : ListFn) (e : String) (fid dirPath pwdId stoken : String)
    (fids : List String) (ctx : BaiduSaveCtx) (fns : List String) :
    (aliLsDir true (.error e)).code = 1 ∧
    (∀ pdir, lf (resolveFidToPath lf true (if pdir ≠ "" then pdir else "0")) = .error e →
      (baiduLsDir lf true pdir).code = 1) ∧
    (aliGetStoken true (.error e)).code = 1 ∧
    ((baiduGetStoken true (.error e)).code ≠ 0 ∨ searchErrno e.data = some 0) ∧
    (baiduGetDetail true (.error e)).code = 1 ∧
    (aliGetDetail true (.error e)).code = 1 ∧
    ((aliSaveFile true (.error e)).code ≠ 0 ∨
      occursIn ("FileAlreadyExists").data e.data = true) ∧
    (ctx.clientOk = true → ¬ (¬ ctx.shareKnown ∧ ctx.stokenCode ≠ 0) →
      ctx.sharedPathsR = .error e →
      baiduSaveFile ctx pwdId stoken fns = baiduSaveErr e) ∧
    ((baiduSaveErr e).code ≠ 0 ∨ searchErrno e.data = some 0) ∧
    (baiduRename lf true fid (.error e)).code = 1 ∧
    (aliRename true (.error e)).code = 1 ∧
    (baiduDelete lf true fids (.error e)).code = 1 ∧
    (aliDelete true (.error e)).code = 1 ∧
    ((baiduMkdirCore true (.error e) dirPath).code = 0 →
      occursIn ("31061").data e.data = true ∨
      occursIn ("already").data e.toLower.data = true) ∧
    ((baiduMkdirCore true (.error e) dirPath).code = 0 ∨
      (baiduMkdirCore true (.error e) dirPath).code = 1) := by
  refine ⟨rfl, fun pdir h => ?_, ?_, ?_, rfl, rfl, ?_, fun hck hst hsp => ?_, ?_,
    ?_, ?_, ?_, ?_, ?_, ?_⟩
  · unfold baiduLsDir
    rw [if_neg (by decide)]
    dsimp only
    rw [h]
  · unfold aliGetStoken
    rw [if_neg (by decide)]
    dsimp only
    repeat' split
    all_goals rfl
  · unfold baiduGetStoken
    rw [if_neg (by decide)]
    cases hse : searchErrno e.data with
    | none => simp [hse]
    | some n =>
      by_cases hn : n = 0
      · subst hn; exact Or.inr rfl
      · simp [hse, hn]
  · unfold aliSaveFile
    rw [if_neg (by decide)]
    by_cases hq : occursIn ("QuotaExhausted").data e.data = true
    · simp [hq]
    · by_cases hf : occursIn ("FileAlreadyExists").data e.data = true
      · exact Or.inr hf
      · simp [hq, hf]
  · unfold baiduSaveFile
    rw [hck, hsp, if_neg (by decide), if_neg hst]
  · unfold baiduSaveErr
    cases hse : searchErrno e.data with
    | none => simp [hse]
    | some n =>
      by_cases hn : n = 0
      · subst hn; exact Or.inr rfl
      · simp [hse, hn]
  · unfold baiduRename
    rw [if_neg (by decide)]
    dsimp only
    split <;> rfl
  · unfold aliRename
    rw [if_neg (by decide)]
  · unfold baiduDelete
    rw [if_neg (by decide)]
    dsimp only
    split <;> rfl
  · unfold aliDelete
    rw [if_neg (by decide)]
  · intro h0
    unfold baiduMkdirCore at h0
    rw [if_neg (by decide)] at h0
    by_cases ha : occursIn ("31061").data e.data = true ∨
        occursIn ("already").data e.toLower.data = true
    · exact ha
    · push_neg at ha
      simp [ha.1, ha.2] at h0
  · unfold baiduMkdirCore
    rw [if_neg (by decide)]
    by_cases ha : occursIn ("31061").data e.data = true
    · simp [ha]
    · by_cases hb : occursIn ("already").data e.toLower.data = true
      · simp [ha, hb]
      · simp [ha, hb]

/-- Witness for C8 at concrete inputs: a raised listing exception converts
to a code-1 envelope, a `shared_paths` exception makes `save_file` return
the exception-handler envelope, and a Baidu `mkdir` exception always yields
code 0 or code 1. -/
theorem C8_witness :
    (baiduLsDir (fun _ => .error "boom") true "").code = 1 ∧
    baiduSaveFile ⟨true, ⟨0, []⟩, true, 0, "", .error "boom", .ok true, ⟨0, []⟩⟩
      "p" "s" [] = baiduSaveErr "boom" ∧
    ((baiduMkdirCore true (.error "boom") "/d").code = 0 ∨
      (baiduMkdirCore true (.error "boom") "/d").code = 1) :=
  have h := C8_amended (fun _ => .error "boom") "boom" "f" "/d" "p" "s" ["f"]
    ⟨true, ⟨0, []⟩, true, 0, "", .error "boom", .ok true, ⟨0, []⟩⟩ []
  ⟨h.2.1 "" rfl, h.2.2.2.2.2.2.2.1 rfl (by simp) rfl,
   h.2.2.2.2.2.2.2.2.2.2.2.2.2.2⟩

theorem scanShareItems_found {fid : String} {bc : List Crumb} {items : List PcsItem} :
    ∀ {acc acc' : List (String × List Crumb)} {p : String} {nb : List Crumb},
      scanShareItems fid bc items acc = (some (p, nb), acc') →
      ∃ it ∈ items, Nat.repr it.fsId = fid ∧ p = it.path ∧ nb = bc ++ [crumbOf it] := by
  induction items with
  | nil => intro acc acc' p nb h; simp [scanShareItems] at h
  | cons it rest ih =>
    intro acc acc' p nb h
    unfold scanShareItems at h
    by_cases hit : Nat.repr it.fsId = fid
    · rw [if_pos hit] at h
      simp only [Prod.mk.injEq, Option.some.injEq] at h
      obtain ⟨⟨hp, hnb⟩, -⟩ := h
      exact ⟨it, by simp, hit, hp.symm, hnb.symm⟩
    · rw [if_neg hit] at h
      obtain ⟨x, hx, h1, h2, h3⟩ := ih h
      exact ⟨x, by simp [hx], h1, h2, h3⟩

theorem scanShareItems_none {fid : String} {bc : List Crumb} {items : List PcsItem} :
    ∀ {acc acc' : List (String × List Crumb)},
      scanShareItems fid bc items acc = (none, acc') →
      ∃ ext, acc' = acc ++ ext ∧
        ∀ q ∈ ext, ∃ it ∈ items, it.isDir = true ∧ q.1 = it.path ∧
          q.2 = bc ++ [crumbOf it] := by
  induction items with
  | nil =>
    intro acc acc' h
    simp only [scanShareItems, Prod.mk.injEq] at h
    exact ⟨[], by simp [h.2.symm], by simp⟩
  | cons it rest ih =>
    intro acc acc' h
    unfold scanShareItems at h
    by_cases hit : Nat.repr it.fsId = fid
    · rw [if_pos hit] at h
      simp at h
    · rw [if_neg hit] at h
      obtain ⟨ext, hacc, hext⟩ := ih h
      by_cases hd : it.isDir = true
      · refine ⟨(it.path, bc ++ [crumbOf it]) :: ext, ?_, ?_⟩
        · rw [hacc]
          simp [hd]
        · intro q hq
          rcases List.mem_cons.mp hq with hq | hq
          · exact ⟨it, by simp, hd, by simp [hq], by simp [hq]⟩
          · obtain ⟨x, hx, h1, h2, h3⟩ := hext q hq
            exact ⟨x, by simp [hx], h1, h2, h3⟩
      · refine ⟨ext, ?_, ?_⟩
        · rw [hacc]
          simp [hd]
        · intro q hq
          obtain ⟨x, hx, h1, h2, h3⟩ := hext q hq
          exact ⟨x, by simp [hx], h1, h2, h3⟩

theorem scanShareQueue_found {lsh : ListFn} {roots : List PcsItem} {fid : String} :
    ∀ {queue acc acc' : List (String × List Crumb)} {p : String} {nb : List Crumb},
      QueueInv lsh roots queue →
      scanShareQueue lsh fid queue acc = (some (p, nb), acc') →
      ∃ it c, ShareDescent lsh roots (it :: c) ∧ Nat.repr it.fsId = fid ∧
        it.path = p ∧ nb = ((it :: c).reverse).map crumbOf := by
  intro queue
  induction queue with
  | nil => intro acc acc' p nb _ h; simp [scanShareQueue] at h
  | cons e rest ih =>
    intro acc acc' p nb hq h
    obtain ⟨qp, qbc⟩ := e
    obtain ⟨pit, pc, hdesc, hdir, hpath, hbc⟩ := hq (qp, qbc) (by simp)
    simp only at hpath hbc
    have hqrest : QueueInv lsh roots rest := fun x hx => hq x (by simp [hx])
    unfold scanShareQueue at h
    cases hld : lsh qp with
    | error msg =>
      rw [hld] at h
      dsimp only at h
      exact ih hqrest h
    | ok items =>
      rw [hld] at h
      dsimp only at h
      cases hsc : scanShareItems fid qbc items acc with
      | mk r acc2 =>
        rw [hsc] at h
        cases r with
        | some res =>
          obtain ⟨p0, nb0⟩ := res
          simp only [Prod.mk.injEq, Option.some.injEq] at h
          obtain ⟨⟨hp0, hnb0⟩, -⟩ := h
          obtain ⟨x, hx, h1, h2, h3⟩ := scanShareItems_found hsc
          subst hp0 hnb0
          refine ⟨x, pit :: pc, ?_, h1, h2.symm, ?_⟩
          · refine ShareDescent.step x pit pc items hdesc hdir ?_ hx
            rw [← hpath]
            exact hld
          · rw [h3, hbc]
            simp
        | none => exact ih hqrest h

theorem scanShareQueue_none {lsh : ListFn} {roots : List PcsItem} {fid : String} :
    ∀ {queue acc acc' : List (String × List Crumb)},
      QueueInv lsh roots queue → QueueInv lsh roots acc →
      scanShareQueue lsh fid queue acc = (none, acc') →
      QueueInv lsh roots acc' := by
  intro queue
  induction queue with
  | nil =>
    intro acc acc' _ hacc h
    simp only [scanShareQueue, Prod.mk.injEq] at h
    exact h.2 ▸ hacc
  | cons e rest ih =>
    intro acc acc' hq hacc h
    obtain ⟨qp, qbc⟩ := e
    obtain ⟨pit, pc, hdesc, hdir, hpath, hbc⟩ := hq (qp, qbc) (by simp)
    simp only at hpath hbc
    have hqrest : QueueInv lsh roots rest := fun x hx => hq x (by simp [hx])
    unfold scanShareQueue at h
    cases hld : lsh qp with
    | error msg =>
      rw [hld] at h
      dsimp only at h
      exact ih hqrest hacc h
    | ok items =>
      rw [hld] at h
      dsimp only at h
      cases hsc : scanShareItems fid qbc items acc with
      | mk r acc2 =>
        rw [hsc] at h
        cases r with
        | some res => simp at h
        | none =>
          dsimp only at h
          have hacc2 : QueueInv lsh roots acc2 := by
            obtain ⟨ext, hae, hext⟩ := scanShareItems_none hsc
            intro x hx
            rw [hae] at hx
            rcases List.mem_append.mp hx with hx | hx
            · exact hacc x hx
            · obtain ⟨y, hy, h1, h2, h3⟩ := hext x hx
              refine ⟨y, pit :: pc, ?_, h1, h2, ?_⟩
              · refine ShareDescent.step y pit pc items hdesc hdir ?_ hy
                rw [← hpath]
                exact hld
              · rw [h3, hbc]
                simp
          exact ih hqrest hacc2 h

theorem bfsShareLoop_found {lsh : ListFn} {roots : List PcsItem} {fid : String} :
    ∀ (n : Nat) (queue : List (String × List Crumb)) (p : String) (bc : List Crumb),
      QueueInv lsh roots queue →
      bfsShareLoop lsh fid queue n = (p, bc) → bc ≠ [] →
      ∃ it c, ShareDescent lsh roots (it :: c) ∧ Nat.repr it.fsId = fid ∧
        it.path = p ∧ bc = ((it :: c).reverse).map crumbOf := by
  intro n
  induction n with
  | zero =>
    intro queue p bc _ h hne
    simp only [bfsShareLoop, Prod.mk.injEq] at h
    exact absurd h.2.symm hne
  | succ n ih =>
    intro queue p bc hq h hne
    unfold bfsShareLoop at h
    cases hsc : scanShareQueue lsh fid queue [] with
    | mk r nq =>
      rw [hsc] at h
      cases r with
      | some res =>
        obtain ⟨p0, nb0⟩ := res
        dsimp only at h
        obtain ⟨hp, hbc⟩ := Prod.mk.injEq .. ▸ h
        obtain rfl := hp
        obtain rfl := hbc
        exact scanShareQueue_found hq hsc
      | none =>
        dsimp only at h
        by_cases hnq : nq = []
        · rw [if_pos (by simp [hnq])] at h
          obtain ⟨-, hbc⟩ := Prod.mk.injEq .. ▸ h
          exact absurd hbc.symm hne
        · rw [if_neg (by simp [hnq])] at h
          have hnqInv : QueueInv lsh roots nq :=
            scanShareQueue_none hq (fun x hx => absurd hx (by simp)) hsc
          exact ih nq p bc hnqInv h hne

theorem shareDescent_getLast {lsh : ListFn} {roots : List PcsItem} :
    ∀ {chain : List PcsItem}, ShareDescent lsh roots chain →
      ∃ r, chain.getLast? = some r ∧ r ∈ roots := by
  intro chain h
  induction h with
  | root it hm => exact ⟨it, rfl, hm⟩
  | step it p c items hp hd hl hm ih =>
    obtain ⟨r, hr, hrm⟩ := ih
    exact ⟨r, by rw [List.getLast?_cons_cons]; exact hr, hrm⟩

/-- C9: whenever `_bfs_share_tree` finds the target (returns a non-empty
breadcrumb), the breadcrumb is ordered strictly from the share root down to
the target: it is the crumb list of a descent chain whose first element is
a top-level entry of the share, in which each subsequent element was listed
inside the directory of the previous one, and whose last element is the
target itself (its fid is the target and its path is the returned path) —
for every listing function, i.e. regardless of sibling visit order. -/
theorem C9_breadcrumb_root_to_target (lsh : ListFn) (roots : List PcsItem)
    (fid : String) (n : Nat) (p : String) (bc : List Crumb)
    (h : bfsShareTree lsh roots fid n = (p, bc)) (hne : bc ≠ []) :
    ∃ it c, ShareDescent lsh roots (it :: c) ∧ Nat.repr it.fsId = fid ∧
      it.path = p ∧ bc = ((it :: c).reverse).map crumbOf ∧
      ∃ r, (it :: c).getLast? = some r ∧ r ∈ roots := by
  unfold bfsShareTree at h
  cases hf : roots.find? (fun it => Nat.repr it.fsId = fid) with
  | some it =>
    rw [hf] at h
    dsimp only at h
    obtain ⟨hp, hbc⟩ := Prod.mk.injEq .. ▸ h
    obtain rfl := hp
    obtain rfl := hbc
    have hmem := List.mem_of_find?_eq_some hf
    have hfid : Nat.repr it.fsId = fid := by simpa using List.find?_some hf
    exact ⟨it, [], ShareDescent.root it hmem, hfid, rfl, by simp [crumbOf],
      it, rfl, hmem⟩
  | none =>
    rw [hf] at h
    have hqInv : QueueInv lsh roots (shareRootQueue roots) := by
      intro e he
      unfold shareRootQueue at he
      obtain ⟨it, hit, hsome⟩ := List.mem_filterMap.mp he
      by_cases hd : it.isDir = true
      · rw [if_pos hd] at hsome
        obtain rfl := Option.some.injEq .. ▸ hsome
        exact ⟨it, [], ShareDescent.root it hit, hd, rfl, by simp [crumbOf]⟩
      · rw [if_neg hd] at hsome
        cases hsome
    obtain ⟨it, c, hdesc, hfid, hpath, hbc⟩ :=
      bfsShareLoop_found n (shareRootQueue roots) p bc hqInv h hne
    exact ⟨it, c, hdesc, hfid, hpath, hbc, shareDescent_getLast hdesc⟩

/-- Witness for C9 at a concrete two-level share tree: the target (fs_id 7,
inside the root-level directory `/a`) is found and the conclusion holds for
the returned breadcrumb. -/
theorem C9_witness :
    ∃ it c,
      ShareDescent
        (fun d => if d = "/a" then .ok [⟨"/a/b", 7, false⟩] else .ok [])
        [⟨"/a", 3, true⟩] (it :: c) ∧
      Nat.repr it.fsId = "7" ∧ it.path = "/a/b" ∧
      ([⟨"3", "a"⟩, ⟨"7", "b"⟩] : List Crumb) = ((it :: c).reverse).map crumbOf ∧
      ∃ r, (it :: c).getLast? = some r ∧ r ∈ [(⟨"/a", 3, true⟩ : PcsItem)] :=
  C9_breadcrumb_root_to_target
    (fun d => if d = "/a" then .ok [⟨"/a/b", 7, false⟩] else .ok [])
    [⟨"/a", 3, true⟩] "7" 5 "/a/b" [⟨"3", "a"⟩, ⟨"7", "b"⟩]
    (by decide) (by decide)
